import Mathlib

/-!
Verification development for the employee-collaboration analysis engine of
`simple-server.js` (flexible date parsing, CSV row validation, pairwise
interval-overlap aggregation) and its TypeScript client data model.

Shallow embedding conventions:
* JS strings are modelled as `List Char` (`Str`).
* JS `Date` objects are modelled by their time value: an `Int` count of
  milliseconds since the Unix epoch (the value of `Date.prototype.getTime`),
  with the local time zone taken to be UTC.
* The permissive `new Date(string)` parse that `parseFlexibleDate` tries
  first is engine-dependent in JS; it is modelled as an explicit oracle
  parameter `jsP : Str → Option Int` supplied to the functions that use it.
* `new Date()` (the current clock) is modelled as an oracle `clock : Nat → Int`
  together with a read counter threaded through the computation: the n-th
  dynamic `new Date()` call returns `clock n`.
-/

/-- JS strings as lists of UTF-16-ish code points. -/
abbrev Str := List Char

/-- Character class `\d` of the regexes in `parseFlexibleDate` (ASCII digits). -/
def isDigitCh (c : Char) : Bool := decide (48 ≤ c.toNat ∧ c.toNat ≤ 57)

/-- Whitespace removed by `String.prototype.trim` (ASCII part, which is all
the repository's inputs use). -/
def isWSCh (c : Char) : Bool :=
  decide (c.toNat = 32 ∨ c.toNat = 9 ∨ c.toNat = 10 ∨ c.toNat = 11 ∨ c.toNat = 12 ∨ c.toNat = 13)

/-- ASCII `toLowerCase`, as used by the `'null'` sentinel comparison. -/
def jsToLowerCh (c : Char) : Char :=
  if 65 ≤ c.toNat ∧ c.toNat ≤ 90 then Char.ofNat (c.toNat + 32) else c

/-- Model of `String.prototype.toLowerCase` (ASCII range). -/
def lowerChars (cs : Str) : Str := cs.map jsToLowerCh

/-- Model of `String.prototype.trim`. -/
def trimChars (cs : Str) : Str :=
  ((cs.dropWhile isWSCh).reverse.dropWhile isWSCh).reverse

/-- Model of `String.prototype.split(sep)` (no limit; keeps empty parts). -/
def splitChar (sep : Char) : Str → List Str
  | [] => [[]]
  | c :: cs =>
    if c = sep then [] :: splitChar sep cs
    else
      match splitChar sep cs with
      | [] => [[c]]
      | p :: ps => (c :: p) :: ps

/-- Numeric value of a digit string, as `parseInt` computes it on an
all-digit input (base 10). -/
def digitsVal (cs : Str) : Int :=
  cs.foldl (fun a c => 10 * a + ((c.toNat : Int) - 48)) 0

/-- Decimal rendering of a `Nat`, as JS template literals render it. -/
def natStr (n : Nat) : Str := (Nat.repr n).data

/-- Decimal rendering of an integral JS number, as template literals render it. -/
def intStr (i : Int) : Str := (Int.repr i).data

/-!  JS `Date` arithmetic.  `daysFromCivil`/`civilFromDays` convert between a
proleptic-Gregorian calendar date and a day number relative to 1970-01-01,
following the standard civil-calendar algorithms, which agree with the
ECMAScript `MakeDay`/`YearFromTime` specification. -/

/-- Day number (days since 1970-01-01) of the civil date `y-m-d`, `m` 1-based. -/
def daysFromCivil (y m d : Int) : Int :=
  let yy := if m ≤ 2 then y - 1 else y
  let era := yy / 400
  let yoe := yy - era * 400
  let mp := if 2 < m then m - 3 else m + 9
  let doy := (153 * mp + 2) / 5 + d - 1
  let doe := yoe * 365 + yoe / 4 - yoe / 100 + doy
  era * 146097 + doe - 719468

/-- Civil date `(year, month, day)` (month 1-based) of a day number. -/
def civilFromDays (z : Int) : Int × Int × Int :=
  let zz := z + 719468
  let era := zz / 146097
  let doe := zz - era * 146097
  let yoe := (doe - doe / 1460 + doe / 36524 - doe / 146096) / 365
  let y := yoe + era * 400
  let doy := doe - (365 * yoe + yoe / 4 - yoe / 100)
  let mp := (5 * doy + 2) / 153
  let d := doy - (153 * mp + 2) / 5 + 1
  let m := if mp < 10 then mp + 3 else mp - 9
  (if m ≤ 2 then y + 1 else y, m, d)

/-- ECMAScript `MakeDay(y, m, d)`: day number of year `y`, 0-based month `m`
(out-of-range months roll over into adjacent years), day-of-month `d`
(out-of-range days roll over into adjacent months). -/
def makeDay (y m d : Int) : Int :=
  daysFromCivil (y + m / 12) (m % 12 + 1) 1 + (d - 1)

/-- Time value produced by `new Date(y, m, d)` (midnight, local = UTC):
years 0..99 are mapped to 1900+y, and the result is `none` exactly when the
time value falls outside the ±8.64e15 ms range (`getTime()` is `NaN`). -/
def jsNewDate (y m d : Int) : Option Int :=
  let yr := if 0 ≤ y ∧ y ≤ 99 then 1900 + y else y
  let ms := makeDay yr m d * 86400000
  if -8640000000000000 ≤ ms ∧ ms ≤ 8640000000000000 then some ms else none

/-- Model of `Date.prototype.getFullYear` on a time value (local = UTC). -/
def jsGetFullYear (t : Int) : Int := (civilFromDays (t / 86400000)).1

/-- Convenience: midnight UTC of a civil date as a time value, for concrete
test inputs (month 1-based). -/
def dMs (y m d : Int) : Int := daysFromCivil y m d * 86400000

/-- Digit run of bounded length: the character class `\d{lo,hi}` anchored on a
whole split part. -/
def digitPart (lo hi : Nat) (p : Str) : Bool :=
  decide (lo ≤ p.length) && decide (p.length ≤ hi) && p.all isDigitCh

/-- Test for the whole-string regex `^\d{8}$`. -/
def digits8 (cs : Str) : Bool := decide (cs.length = 8) && cs.all isDigitCh

/-- Shape `^\d{1,2}<sep>\d{1,2}<sep>\d{4}$`: the three split parts when the
regex matches, `none` otherwise. -/
def sepParts (sep : Char) (cs : Str) : Option (Str × Str × Str) :=
  match splitChar sep cs with
  | [p0, p1, p2] =>
    if digitPart 1 2 p0 && digitPart 1 2 p1 && digitPart 4 4 p2
    then some (p0, p1, p2) else none
  | _ => none

/-- Branch of `parseFlexibleDate` for `DD-MM-YYYY` (4-digit year last).  The
source re-checks `parts[2].length === 4` inside the branch; the regex encoded
in `sepParts` already guarantees it.  An invalid construction falls through to
the final `return null`. -/
def tryDashFormat (c : Str) : Option Int :=
  match sepParts '-' c with
  | some (p0, p1, p2) => jsNewDate (digitsVal p2) (digitsVal p1 - 1) (digitsVal p0)
  | none => none

/-- Branch of `parseFlexibleDate` for `DD.MM.YYYY`; on failure control flows
on to the dash check (which cannot match a dot-shaped string). -/
def tryDotFormat (c : Str) : Option Int :=
  match sepParts '.' c with
  | some (p0, p1, p2) =>
    match jsNewDate (digitsVal p2) (digitsVal p1 - 1) (digitsVal p0) with
    | some t => some t
    | none => tryDashFormat c
  | none => tryDashFormat c

/-- The `MM/DD/YYYY` (US) fallback inside the slash branch: accepted
unconditionally if the construction is valid; otherwise control flows on to
the dot and dash checks (which cannot match a slash-shaped string). -/
def trySlashMDY (p0 p1 p2 : Str) (c : Str) : Option Int :=
  match jsNewDate (digitsVal p2) (digitsVal p0 - 1) (digitsVal p1) with
  | some t => some t
  | none => tryDotFormat c

/-- Slash branch of `parseFlexibleDate`: try `DD/MM/YYYY` first and keep it
only if `getFullYear` round-trips to the written year (JS loose equality
`number == string`, the string being 4 digits, is numeric equality); otherwise
fall back to `MM/DD/YYYY`. -/
def trySlashFormats (c : Str) : Option Int :=
  match sepParts '/' c with
  | some (p0, p1, p2) =>
    match jsNewDate (digitsVal p2) (digitsVal p1 - 1) (digitsVal p0) with
    | some t =>
      if jsGetFullYear t = digitsVal p2 then some t
      else trySlashMDY p0 p1 p2 c
    | none => trySlashMDY p0 p1 p2 c
  | none => tryDotFormat c

/-- Model of `parseFlexibleDate(dateStr)`: `none` both for the "no date"
sentinel (undefined/empty/'null') and for an unparsable string, exactly as the
source returns `null` in both cases.  `jsP` is the engine's permissive
`new Date(string)` parse, tried first. -/
def parseFlexibleDate (jsP : Str → Option Int) : Option Str → Option Int
  | none => none
  | some s =>
    if s = [] ∨ lowerChars s = "null".data ∨ trimChars s = [] then none
    else
      match jsP s with
      | some d => some d
      | none =>
        let c := trimChars s
        if digits8 c then
          match jsNewDate (digitsVal (c.take 4)) (digitsVal ((c.drop 4).take 2) - 1)
              (digitsVal (c.drop 6)) with
          | some t => some t
          | none => trySlashFormats c
        else trySlashFormats c

/-!  Record parser (`parseCSVData`).  A tokenized CSV row is a mapping from
column-name text to cell text; rows are what the `csv-parse` collaborator
hands to the `data.forEach` loop. -/

/-- One tokenized CSV row. -/
abbrev Row := List (Str × Str)

/-- Property read `row.<name>`: `none` models `undefined` (column absent). -/
def rowGet (row : Row) (name : Str) : Option Str :=
  match row with
  | [] => none
  | (k, v) :: t => if k = name then some v else rowGet t name

/-- JS `a || b` on string-or-undefined values: the empty string is falsy. -/
def orFalsy (a b : Option Str) : Option Str :=
  match a with
  | some v => if v = [] then b else some v
  | none => b

/-- Alias chain `row.N1 || row.N2 || row.N3` used for each logical column. -/
def getField (row : Row) (n1 n2 n3 : Str) : Option Str :=
  orFalsy (rowGet row n1) (orFalsy (rowGet row n2) (rowGet row n3))

/-- Model of `parseInt(x)` on a cell (radix-10 path): `none` is `NaN`.
`parseInt` skips leading whitespace, takes an optional sign and then the
longest leading digit run; no digits means `NaN`.  (The hex `0x` prefix path
never occurs for this data and is not modelled.) -/
def jsParseInt (a : Option Str) : Option Int :=
  match a with
  | none => none
  | some cs =>
    let t := cs.dropWhile isWSCh
    match t with
    | '-' :: rest =>
      if (rest.takeWhile isDigitCh) = [] then none
      else some (-(digitsVal (rest.takeWhile isDigitCh)))
    | '+' :: rest =>
      if (rest.takeWhile isDigitCh) = [] then none
      else some (digitsVal (rest.takeWhile isDigitCh))
    | _ =>
      if (t.takeWhile isDigitCh) = [] then none
      else some (digitsVal (t.takeWhile isDigitCh))

/-- Validated assignment record (named as in the TypeScript client). -/
structure EmployeeProject where
  empId : Int
  projectId : Int
  dateFrom : Int
  dateTo : Option Int
  deriving DecidableEq

/-- Rendering of a string-or-undefined value inside a template literal:
`undefined` prints as the text `undefined`. -/
def strOrUndefined (a : Option Str) : Str :=
  match a with
  | some v => v
  | none => "undefined".data

/-- Body of the per-row `forEach` in `parseCSVData`: either a validated
record or the error string pushed for this row (`idx` is the 0-based index;
messages use `idx + 1`). -/
def parseRow (jsP : Str → Option Int) (idx : Nat) (row : Row) :
    Except Str EmployeeProject :=
  let empId := jsParseInt (getField row "EmpID".data "empId".data "EmployeeID".data)
  let projectId := jsParseInt (getField row "ProjectID".data "projectId".data "ProjectId".data)
  let dateFromStr := getField row "DateFrom".data "dateFrom".data "StartDate".data
  let dateToStr := getField row "DateTo".data "dateTo".data "EndDate".data
  match empId, projectId with
  | some e, some p =>
    match parseFlexibleDate jsP dateFromStr with
    | none =>
      .error ("Row ".data ++ natStr (idx + 1) ++ ": Invalid date format for DateFrom: \"".data
        ++ strOrUndefined dateFromStr ++ "\"".data)
    | some df => .ok { empId := e, projectId := p, dateFrom := df,
                       dateTo := parseFlexibleDate jsP dateToStr }
  | _, _ => .error ("Row ".data ++ natStr (idx + 1) ++ ": Invalid employee ID or project ID".data)

/-- The `forEach` loop of `parseCSVData`: accumulates, in row order, the
validated records and the per-row error strings. -/
def parseRows (jsP : Str → Option Int) : Nat → List Row → List EmployeeProject × List Str
  | _, [] => ([], [])
  | i, row :: rest =>
    let tail := parseRows jsP (i + 1) rest
    match parseRow jsP i row with
    | .ok r => (r :: tail.1, tail.2)
    | .error e => (tail.1, e :: tail.2)

/-- Model of `parseCSVData` after successful tokenization: the promise
resolves with the record list only — the accumulated `errors` array is passed
to `console.warn` and then discarded. -/
def parseCSVData (jsP : Str → Option Int) (rows : List Row) : List EmployeeProject :=
  (parseRows jsP 0 rows).1

/-!  Overlap aggregator (`calculateOverlap`, `analyzeEmployees`). -/

/-- Per-project overlap detail entry (the TypeScript `commonProjects` item). -/
structure CommonProject where
  projectId : Int
  overlapDays : Int
  dateFrom : Int
  dateTo : Int
  deriving DecidableEq

/-- Aggregate for one canonical employee pair (the TypeScript `EmployeePair`). -/
structure EmployeePair where
  emp1 : Int
  emp2 : Int
  totalDays : Int
  commonProjects : List CommonProject
  deriving DecidableEq

/-- Summary block of the result. -/
structure Summary where
  totalRecords : Nat
  uniqueEmployees : Nat
  uniqueProjects : Nat
  employeePairs : Nat
  deriving DecidableEq

/-- Result of one aggregator invocation (the TypeScript `AnalysisResult`). -/
structure AnalysisResult where
  topPair : Str
  allPairs : List EmployeePair
  summary : Summary
  processedData : List EmployeeProject
  errors : List Str
  deriving DecidableEq

/-- Evaluation of `e || new Date()` for an end date: a present end date is
used as is; a null one costs one clock read. -/
def resolveEnd (clock : Nat → Int) : Option Int → Nat → Int × Nat
  | some t, k => (t, k)
  | none, k => (clock k, k + 1)

/-- `Math.ceil(a / b)` for integer `a` and positive integer `b`. -/
def jsCeilDiv (a b : Int) : Int := -((-a) / b)

/-- Model of `calculateOverlap(start1, end1, start2, end2)`: the returned
day count together with the advanced clock-read counter. -/
def calculateOverlap (clock : Nat → Int) (k : Nat) (s1 : Int) (e1 : Option Int)
    (s2 : Int) (e2 : Option Int) : Int × Nat :=
  let r1 := resolveEnd clock e1 k
  let r2 := resolveEnd clock e2 r1.2
  let os := max s1 s2
  let oe := min r1.1 r2.1
  (if os ≤ oe then jsCeilDiv (oe - os) 86400000 + 1 else 0, r2.2)

/-- Canonical pair key `` `${min}-${max}` ``. -/
def pairKey (a b : Int) : Str := intStr (min a b) ++ "-".data ++ intStr (max a b)

/-- The `pairMap`, with JS `Map` insertion order made explicit. -/
abbrev PairMap := List (Str × EmployeePair)

/-- Model of `pairMap.get(key)` combined with `pairMap.has(key)`. -/
def pmLookup (key : Str) : PairMap → Option EmployeePair
  | [] => none
  | (k, p) :: t => if k = key then some p else pmLookup key t

/-- In-place update of an existing key, preserving `Map` iteration order. -/
def pmUpdate (key : Str) (f : EmployeePair → EmployeePair) : PairMap → PairMap
  | [] => []
  | (k, p) :: t => if k = key then (k, f p) :: t else (k, p) :: pmUpdate key f t

/-- Body of the inner `i`/`j` loop of `analyzeEmployees` for one record pair:
compute the overlap, and when it is positive create the aggregate on first
encounter, add to `totalDays`, and push the detail entry whose interval ends
are recomputed (with fresh `new Date()` reads for null end dates). -/
def processPair (clock : Nat → Int) (projectId : Int) (r1 r2 : EmployeeProject) :
    PairMap × Nat → PairMap × Nat
  | (pm, k) =>
    let ov := calculateOverlap clock k r1.dateFrom r1.dateTo r2.dateFrom r2.dateTo
    if 0 < ov.1 then
      let key := pairKey r1.empId r2.empId
      let pm1 := match pmLookup key pm with
        | some _ => pm
        | none => pm ++ [(key, { emp1 := min r1.empId r2.empId, emp2 := max r1.empId r2.empId,
                                 totalDays := 0, commonProjects := [] })]
      let a1 := resolveEnd clock r1.dateTo ov.2
      let a2 := resolveEnd clock r2.dateTo a1.2
      let os := max r1.dateFrom r2.dateFrom
      let oe := min a1.1 a2.1
      (pmUpdate key (fun p =>
        { p with totalDays := p.totalDays + ov.1,
                 commonProjects := p.commonProjects
                   ++ [{ projectId := projectId, overlapDays := ov.1,
                         dateFrom := os, dateTo := oe }] }) pm1, a2.2)
    else (pm, ov.2)

/-- Inner `j` loop: one fixed record against every later record of the group. -/
def processWith (clock : Nat → Int) (projectId : Int) (r : EmployeeProject) :
    List EmployeeProject → PairMap × Nat → PairMap × Nat
  | [], s => s
  | r2 :: rest, s => processWith clock projectId r rest (processPair clock projectId r r2 s)

/-- Outer `i` loop over one project group. -/
def processGroup (clock : Nat → Int) (projectId : Int) :
    List EmployeeProject → PairMap × Nat → PairMap × Nat
  | [], s => s
  | r :: rest, s => processGroup clock projectId rest (processWith clock projectId r rest s)

/-- Appends a record to its project group, creating the group on first sight
(JS `Map` keeps first-seen key order). -/
def insertGroup (r : EmployeeProject) :
    List (Int × List EmployeeProject) → List (Int × List EmployeeProject)
  | [] => [(r.projectId, [r])]
  | (p, rs) :: t =>
    if p = r.projectId then (p, rs ++ [r]) :: t else (p, rs) :: insertGroup r t

/-- The grouping `forEach` of `analyzeEmployees`. -/
def groupByProject (data : List EmployeeProject) : List (Int × List EmployeeProject) :=
  data.foldl (fun gs r => insertGroup r gs) []

/-- Stable insertion (descending `totalDays`, ties keep earlier-inserted pairs
first) used to model `Array.prototype.sort`, which is stable. -/
def insertRanked (p : EmployeePair) : List EmployeePair → List EmployeePair
  | [] => [p]
  | q :: t => if q.totalDays < p.totalDays then p :: q :: t else q :: insertRanked p t

/-- Stable sort by `totalDays` descending: the unique stable result of the
comparator `(a, b) => b.totalDays - a.totalDays`. -/
def sortPairs (l : List EmployeePair) : List EmployeePair :=
  l.foldl (fun acc p => insertRanked p acc) []

/-- Number of distinct values, as `new Set(xs).size` computes it. -/
def distinctCount (l : List Int) : Nat := l.dedup.length

/-- Headline describing the top pair (or the explicit no-pairs message). -/
def topPairMsg : List EmployeePair → Str
  | [] => "No employee pairs found that worked together".data
  | p :: _ => "Employees ".data ++ intStr p.emp1 ++ " and ".data ++ intStr p.emp2
      ++ " worked together for ".data ++ intStr p.totalDays ++ " days".data

/-- Model of `analyzeEmployees(data)`: `clock` supplies the values of the
successive `new Date()` reads of this invocation. -/
def analyzeEmployees (clock : Nat → Int) (data : List EmployeeProject) : AnalysisResult :=
  let pm := (groupByProject data).foldl (fun s g => processGroup clock g.1 g.2 s) ([], 0)
  let allPairs := sortPairs (pm.1.map Prod.snd)
  { topPair := topPairMsg allPairs
    allPairs := allPairs
    summary := { totalRecords := data.length
                 uniqueEmployees := distinctCount (data.map (fun r => r.empId))
                 uniqueProjects := distinctCount (data.map (fun r => r.projectId))
                 employeePairs := allPairs.length }
    processedData := data
    errors := [] }

/-- The validated records of `SAMPLE_CSV`, in file order (`NULL` end date is
an ongoing assignment). -/
def sampleRecords : List EmployeeProject :=
  [ { empId := 143, projectId := 12, dateFrom := dMs 2013 11 1, dateTo := some (dMs 2014 1 5) }
  , { empId := 218, projectId := 10, dateFrom := dMs 2012 5 16, dateTo := none }
  , { empId := 218, projectId := 10, dateFrom := dMs 2012 5 16, dateTo := some (dMs 2012 9 5) }
  , { empId := 143, projectId := 10, dateFrom := dMs 2009 1 1, dateTo := some (dMs 2011 4 27) }
  , { empId := 143, projectId := 11, dateFrom := dMs 2014 1 5, dateTo := some (dMs 2014 11 9) }
  , { empId := 218, projectId := 12, dateFrom := dMs 2014 11 9, dateTo := some (dMs 2015 1 5) }
  , { empId := 143, projectId := 10, dateFrom := dMs 2012 9 5, dateTo := some (dMs 2013 11 1) }
  , { empId := 218, projectId := 11, dateFrom := dMs 2014 1 5, dateTo := some (dMs 2014 11 9) } ]

/-!  Spec-side engine with a single captured "as-of" moment.  The following
definitions follow the specification's words (section 5 and the design notes:
"a single captured as-of moment ... reused consistently across all
comparisons within that invocation"), to be compared with the clock-threaded
functions modelled from the source. -/

/-- Overlap computation with every null end date replaced by the one captured
`asOf` moment. -/
def calculateOverlapAsOf (asOf s1 : Int) (e1 : Option Int) (s2 : Int) (e2 : Option Int) : Int :=
  let a1 := e1.getD asOf
  let a2 := e2.getD asOf
  let os := max s1 s2
  let oe := min a1 a2
  if os ≤ oe then jsCeilDiv (oe - os) 86400000 + 1 else 0

/-- Pair-processing step of the single-as-of engine. -/
def processPairAsOf (asOf projectId : Int) (r1 r2 : EmployeeProject) (pm : PairMap) : PairMap :=
  let ov := calculateOverlapAsOf asOf r1.dateFrom r1.dateTo r2.dateFrom r2.dateTo
  if 0 < ov then
    let key := pairKey r1.empId r2.empId
    let pm1 := match pmLookup key pm with
      | some _ => pm
      | none => pm ++ [(key, { emp1 := min r1.empId r2.empId, emp2 := max r1.empId r2.empId,
                               totalDays := 0, commonProjects := [] })]
    let os := max r1.dateFrom r2.dateFrom
    let oe := min (r1.dateTo.getD asOf) (r2.dateTo.getD asOf)
    pmUpdate key (fun p =>
      { p with totalDays := p.totalDays + ov,
               commonProjects := p.commonProjects
                 ++ [{ projectId := projectId, overlapDays := ov,
                       dateFrom := os, dateTo := oe }] }) pm1
  else pm

/-- Inner loop of the single-as-of engine. -/
def processWithAsOf (asOf projectId : Int) (r : EmployeeProject) :
    List EmployeeProject → PairMap → PairMap
  | [], pm => pm
  | r2 :: rest, pm => processWithAsOf asOf projectId r rest (processPairAsOf asOf projectId r r2 pm)

/-- Outer loop of the single-as-of engine over one project group. -/
def processGroupAsOf (asOf projectId : Int) : List EmployeeProject → PairMap → PairMap
  | [], pm => pm
  | r :: rest, pm => processGroupAsOf asOf projectId rest (processWithAsOf asOf projectId r rest pm)

/-- The single-as-of engine: `analyzeEmployees` as the specification
describes it, with one `asOf` parameter in place of every `new Date()` read. -/
def analyzeEmployeesAsOf (asOf : Int) (data : List EmployeeProject) : AnalysisResult :=
  let pm := (groupByProject data).foldl (fun pm g => processGroupAsOf asOf g.1 g.2 pm) []
  let allPairs := sortPairs (pm.map Prod.snd)
  { topPair := topPairMsg allPairs
    allPairs := allPairs
    summary := { totalRecords := data.length
                 uniqueEmployees := distinctCount (data.map (fun r => r.empId))
                 uniqueProjects := distinctCount (data.map (fun r => r.projectId))
                 employeePairs := allPairs.length }
    processedData := data
    errors := [] }

/-- Specification-shaped description of one aggregation step: canonicalize the
key, create the aggregate on first encounter, add the day count, append the
detail entry for the clipped interval `[os, oe]`. -/
def specPairInsert (pm : PairMap) (a b pid days os oe : Int) : PairMap :=
  let key := pairKey a b
  let pm1 := match pmLookup key pm with
    | some _ => pm
    | none => pm ++ [(key, { emp1 := min a b, emp2 := max a b,
                             totalDays := 0, commonProjects := [] })]
  pmUpdate key (fun p =>
    { p with totalDays := p.totalDays + days,
             commonProjects := p.commonProjects
               ++ [{ projectId := pid, overlapDays := days,
                     dateFrom := os, dateTo := oe }] }) pm1

/-- Example row whose employee id cell is not numeric. -/
def c2Row : Row :=
  [("EmpID".data, "abc".data), ("ProjectID".data, "10".data),
   ("DateFrom".data, "01/05/2013".data), ("DateTo".data, "NULL".data)]

/-- Example row with valid ids and start date but unparsable end-date text. -/
def c8Row : Row :=
  [("EmpID".data, "143".data), ("ProjectID".data, "12".data),
   ("DateFrom".data, "01/05/2013".data), ("DateTo".data, "garbage".data)]

/-- Two same-project records with open (null) end dates. -/
def c4Records : List EmployeeProject :=
  [{ empId := 1, projectId := 1, dateFrom := 0, dateTo := none },
   { empId := 2, projectId := 1, dateFrom := 0, dateTo := none }]

/-- Clock whose first two reads (inside `calculateOverlap`) return time 0 and
whose later reads (the detail-interval recomputation) return a moment two
days later. -/
def c4Clock : Nat → Int := fun k => if k ≤ 1 then 0 else 172800000

theorem resolveEnd_const_fst (t : Int) (e : Option Int) (k : Nat) :
    (resolveEnd (fun _ => t) e k).1 = e.getD t := by
  cases e <;> rfl

theorem calculateOverlap_const_fst (t : Int) (k : Nat) (s1 : Int) (e1 : Option Int)
    (s2 : Int) (e2 : Option Int) :
    (calculateOverlap (fun _ => t) k s1 e1 s2 e2).1 = calculateOverlapAsOf t s1 e1 s2 e2 := by
  cases e1 <;> cases e2 <;> rfl

theorem processPair_const_fst (t pid : Int) (r1 r2 : EmployeeProject) (pm : PairMap) (k : Nat) :
    (processPair (fun _ => t) pid r1 r2 (pm, k)).1 = processPairAsOf t pid r1 r2 pm := by
  cases h1 : r1.dateTo <;> cases h2 : r2.dateTo <;>
    simp [processPair, processPairAsOf, calculateOverlap, calculateOverlapAsOf,
      resolveEnd, h1, h2, apply_ite Prod.fst]

theorem processWith_const_fst (t pid : Int) (r : EmployeeProject) (rest : List EmployeeProject) :
    ∀ pm k, (processWith (fun _ => t) pid r rest (pm, k)).1 = processWithAsOf t pid r rest pm := by
  induction rest with
  | nil => intro pm k; rfl
  | cons r2 rest ih =>
    intro pm k
    show (processWith (fun _ => t) pid r rest (processPair (fun _ => t) pid r r2 (pm, k))).1 = _
    have h := processPair_const_fst t pid r r2 pm k
    cases hp : processPair (fun _ => t) pid r r2 (pm, k) with
    | mk pm1 k1 =>
      rw [hp] at h
      rw [ih pm1 k1, show pm1 = processPairAsOf t pid r r2 pm from h]
      rfl

theorem processGroup_const_fst (t pid : Int) (es : List EmployeeProject) :
    ∀ pm k, (processGroup (fun _ => t) pid es (pm, k)).1 = processGroupAsOf t pid es pm := by
  induction es with
  | nil => intro pm k; rfl
  | cons r rest ih =>
    intro pm k
    show (processGroup (fun _ => t) pid rest (processWith (fun _ => t) pid r rest (pm, k))).1 = _
    have h := processWith_const_fst t pid r rest pm k
    cases hp : processWith (fun _ => t) pid r rest (pm, k) with
    | mk pm1 k1 =>
      rw [hp] at h
      rw [ih pm1 k1, show pm1 = processWithAsOf t pid r rest pm from h]
      rfl

theorem foldGroups_const_fst (t : Int) (groups : List (Int × List EmployeeProject)) :
    ∀ pm k, ((groups.foldl (fun s g => processGroup (fun _ => t) g.1 g.2 s) (pm, k)).1
      = groups.foldl (fun pm g => processGroupAsOf t g.1 g.2 pm) pm) := by
  induction groups with
  | nil => intro pm k; rfl
  | cons g rest ih =>
    intro pm k
    show ((rest.foldl _ (processGroup (fun _ => t) g.1 g.2 (pm, k))).1 = _)
    have h := processGroup_const_fst t g.1 g.2 pm k
    cases hp : processGroup (fun _ => t) g.1 g.2 (pm, k) with
    | mk pm1 k1 =>
      rw [hp] at h
      rw [ih pm1 k1, show pm1 = processGroupAsOf t g.1 g.2 pm from h]
      rfl

/-- With all clock reads returning the same captured value `t`, the engine as
written coincides with the single-as-of engine at `t`. -/
theorem analyze_const_clock_asOf (t : Int) (data : List EmployeeProject) :
    analyzeEmployees (fun _ => t) data = analyzeEmployeesAsOf t data := by
  unfold analyzeEmployees analyzeEmployeesAsOf
  dsimp only
  rw [foldGroups_const_fst t (groupByProject data) [] 0]

theorem jsCeilDiv_nonneg (a : Int) (h : 0 ≤ a) : 0 ≤ jsCeilDiv a 86400000 := by
  unfold jsCeilDiv
  omega

theorem calculateOverlapAsOf_comm (t s1 : Int) (e1 : Option Int) (s2 : Int) (e2 : Option Int) :
    calculateOverlapAsOf t s1 e1 s2 e2 = calculateOverlapAsOf t s2 e2 s1 e1 := by
  unfold calculateOverlapAsOf
  dsimp only
  rw [max_comm s1 s2, min_comm (e1.getD t) (e2.getD t)]

theorem pairKey_comm (a b : Int) : pairKey a b = pairKey b a := by
  unfold pairKey
  rw [min_comm, max_comm]

theorem processPairAsOf_swap (t pid : Int) (r1 r2 : EmployeeProject) (pm : PairMap) :
    processPairAsOf t pid r1 r2 pm = processPairAsOf t pid r2 r1 pm := by
  unfold processPairAsOf
  dsimp only
  rw [calculateOverlapAsOf_comm, pairKey_comm, min_comm r1.empId r2.empId,
    max_comm r1.empId r2.empId, max_comm r1.dateFrom r2.dateFrom,
    min_comm (r1.dateTo.getD t) (r2.dateTo.getD t)]

/-- The oracle for the permissive first-stage parse enters `parseFlexibleDate`
only through its value on the parsed string. -/
theorem parseFlexibleDate_oracle_congr (jsP jsQ : Str → Option Int) (s : Str)
    (h : jsP s = jsQ s) :
    parseFlexibleDate jsP (some s) = parseFlexibleDate jsQ (some s) := by
  simp only [parseFlexibleDate]
  rw [h]

/-- Any `new Date(y, m, d)` with a four-digit-parse year and two-digit-parse
month and day fields is a valid date: the time value stays far inside the
±8.64e15 ms range, so `getTime()` is never `NaN`. -/
theorem jsNewDate_total (y m d : Int) (hy0 : 0 ≤ y) (hy1 : y ≤ 9999) (hm0 : -1 ≤ m)
    (hm1 : m ≤ 98) (hd0 : 0 ≤ d) (hd1 : d ≤ 99) : ∃ t, jsNewDate y m d = some t := by
  refine ⟨makeDay (if 0 ≤ y ∧ y ≤ 99 then 1900 + y else y) m d * 86400000, ?_⟩
  unfold jsNewDate makeDay daysFromCivil
  dsimp only
  split <;> split <;> split <;> simp_all <;> omega

/-!  Sanity checks of the embedding against the specification testable
properties (date vectors of section 8). -/

example : daysFromCivil 1970 1 1 = 0 := by decide
example : civilFromDays 0 = (1970, 1, 1) := by decide
example : civilFromDays (makeDay 2013 12 1) = (2014, 1, 1) := by decide
example : civilFromDays (makeDay 2020 3 31) = (2020, 5, 1) := by decide
example : jsGetFullYear (makeDay 2020 3 31 * 86400000) = 2020 := by decide
example : ∀ y m d : Int, 0 ≤ y → y ≤ 9999 → -1 ≤ m → m ≤ 98 → 0 ≤ d → d ≤ 99 →
    (jsNewDate y m d).isSome = true := by
  intro y m d h1 h2 h3 h4 h5 h6
  unfold jsNewDate makeDay daysFromCivil
  dsimp only
  split <;> split <;> split <;> simp_all <;> omega
example : parseFlexibleDate (fun _ => none) (some "31/04/2020".data) = some (dMs 2020 5 1) := by
  decide
example : parseFlexibleDate (fun _ => none) (some "20131301".data) = some (dMs 2014 1 1) := by
  decide
example : parseFlexibleDate (fun _ => none) (some "NULL".data) = none := by decide
example : parseFlexibleDate (fun _ => none) (some "".data) = none := by decide
example : parseFlexibleDate (fun _ => none) (some "not-a-date".data) = none := by decide
example : parseFlexibleDate (fun _ => none) (some "01/05/2013".data) = some (dMs 2013 5 1) := by
  decide
example : parseFlexibleDate (fun _ => none) (some "26.11.2014".data) = some (dMs 2014 11 26) := by
  decide
example : parseFlexibleDate (fun _ => none) (some "26-11-2014".data) = some (dMs 2014 11 26) := by
  decide

/-!  Claims. -/

/-- C7: the aggregator applied to an empty record list never fails: it
returns an `AnalysisResult` with all summary counts zero, an empty pair list
and the explicit no-pairs headline. -/
theorem c7_empty_input_yields_zero_result (clock : Nat → Int) :
    analyzeEmployees clock [] =
      { topPair := "No employee pairs found that worked together".data
        allPairs := []
        summary := { totalRecords := 0, uniqueEmployees := 0, uniqueProjects := 0,
                     employeePairs := 0 }
        processedData := []
        errors := [] } := rfl

/-- C9: `calculateOverlap` is symmetric in its two intervals once a fixed
as-of moment is substituted for null ends (constant clock). -/
theorem c9_calculateOverlap_symm (t : Int) (k : Nat) (s1 : Int) (e1 : Option Int)
    (s2 : Int) (e2 : Option Int) :
    calculateOverlap (fun _ => t) k s1 e1 s2 e2
      = calculateOverlap (fun _ => t) k s2 e2 s1 e1 := by
  cases e1 <;> cases e2 <;>
    simp [calculateOverlap, resolveEnd, min_comm, max_comm]

/-- C1 (failing-input evaluation): on the two project-10 records of
`SAMPLE_CSV` that both belong to employee 218, the aggregator creates a
`PairAggregate` whose two employee ids are equal, violating the claimed
`emp1 < emp2` invariant. -/
theorem c1_self_pair_created_on_sample_records :
    ((analyzeEmployees (fun _ => dMs 2025 1 1)
        [{ empId := 218, projectId := 10, dateFrom := dMs 2012 5 16, dateTo := none },
         { empId := 218, projectId := 10, dateFrom := dMs 2012 5 16,
           dateTo := some (dMs 2012 9 5) }]).allPairs.map
      (fun p => (p.emp1, p.emp2))) = [(218, 218)] := by decide

/-- C2 (failing-input evaluation): the parse loop does accumulate the tagged
per-row error string, but the resolved value of `parseCSVData` drops the
error list, and the `AnalysisResult` error list is unconditionally empty —
the parse errors never reach the result. -/
theorem c2_parse_errors_dropped_from_result :
    (parseRows (fun _ => none) 0 [c2Row]).2
        = ["Row 1: Invalid employee ID or project ID".data]
      ∧ parseCSVData (fun _ => none) [c2Row] = []
      ∧ ∀ (clock : Nat → Int) (data : List EmployeeProject),
          (analyzeEmployees clock data).errors = [] :=
  ⟨by decide, by decide, fun _ _ => rfl⟩

/-- C3 (counterexample): `parseFlexibleDate("31/04/2020")` does not return a
parse failure, contrary to the claim (the step-2 oracle failing on the
token, as the claim itself assumes). -/
theorem c3_counterexample_no_failure :
    parseFlexibleDate (fun _ => none) (some "31/04/2020".data) ≠ none := by decide

/-- C3 (amended): whenever the general step-2 parse fails on `"31/04/2020"`,
`parseFlexibleDate` returns the calendar date 2020-05-01: the day-first
construction `Date(2020, 3, 31)` rolls over to May 1 of the same year, so the
year-only round-trip guard accepts it and the month-first fallback is never
reached. -/
theorem c3_day_first_rollover_accepted (jsP : Str → Option Int)
    (h : jsP "31/04/2020".data = none) :
    parseFlexibleDate jsP (some "31/04/2020".data) = some (dMs 2020 5 1) := by
  rw [parseFlexibleDate_oracle_congr jsP (fun _ => none) _ h]
  decide

/-- C3 witness: the amended statement at the concrete everywhere-failing
step-2 oracle. -/
theorem c3_witness :
    parseFlexibleDate (fun _ => none) (some "31/04/2020".data) = some (dMs 2020 5 1) :=
  c3_day_first_rollover_accepted (fun _ => none) rfl
/-- C5: for two records of one project group under a fixed as-of moment, the
computed overlap is `ceil((end - start) in days) + 1` over the clipped
interval `[max(start1, start2), min(effEnd1, effEnd2)]` when that interval is
nonempty and `0` otherwise; a nonempty interval contributes exactly one
aggregation step with that day count and that clipped interval as the detail
entry, and an empty one contributes nothing; intervals sharing exactly one
boundary day overlap by exactly 1 day. -/
theorem c5_overlap_formula_and_contribution (t pid : Int) (r1 r2 : EmployeeProject)
    (pm : PairMap) (k : Nat) :
    ((calculateOverlap (fun _ => t) k r1.dateFrom r1.dateTo r2.dateFrom r2.dateTo).1
        = (if max r1.dateFrom r2.dateFrom ≤ min (r1.dateTo.getD t) (r2.dateTo.getD t)
           then jsCeilDiv (min (r1.dateTo.getD t) (r2.dateTo.getD t)
                  - max r1.dateFrom r2.dateFrom) 86400000 + 1
           else 0))
    ∧ ((processPair (fun _ => t) pid r1 r2 (pm, k)).1
        = (if max r1.dateFrom r2.dateFrom ≤ min (r1.dateTo.getD t) (r2.dateTo.getD t)
           then specPairInsert pm r1.empId r2.empId pid
                  (jsCeilDiv (min (r1.dateTo.getD t) (r2.dateTo.getD t)
                    - max r1.dateFrom r2.dateFrom) 86400000 + 1)
                  (max r1.dateFrom r2.dateFrom)
                  (min (r1.dateTo.getD t) (r2.dateTo.getD t))
           else pm))
    ∧ (calculateOverlap (fun _ => 0) 0 (dMs 2013 11 1) (some (dMs 2014 1 5))
        (dMs 2012 9 5) (some (dMs 2013 11 1))).1 = 1 := by
  refine ⟨?_, ?_, by decide⟩
  · rw [calculateOverlap_const_fst]
    rfl
  · rw [processPair_const_fst]
    unfold processPairAsOf specPairInsert calculateOverlapAsOf
    dsimp only
    by_cases hle : max r1.dateFrom r2.dateFrom ≤ min (r1.dateTo.getD t) (r2.dateTo.getD t)
    · have hpos : 0 < jsCeilDiv (min (r1.dateTo.getD t) (r2.dateTo.getD t)
          - max r1.dateFrom r2.dateFrom) 86400000 + 1 := by
        have := jsCeilDiv_nonneg (min (r1.dateTo.getD t) (r2.dateTo.getD t)
          - max r1.dateFrom r2.dateFrom) (by omega)
        omega
      rw [if_pos hle, if_pos hpos, if_pos hle]
    · rw [if_neg hle, if_neg (by omega : ¬ (0:Int) < 0), if_neg hle]

/-- C8: a row with valid employee id, project id and start date is never
rejected because of its end-date cell: any end-date text on which
`parseFlexibleDate` yields no date (the "no date" sentinel or a parse
failure — the source returns `null` for both) produces an accepted record
with a null (ongoing) end date. -/
theorem c8_unparsable_end_date_tolerated (jsP : Str → Option Int) (idx : Nat) (row : Row)
    (e p df : Int)
    (hE : jsParseInt (getField row "EmpID".data "empId".data "EmployeeID".data) = some e)
    (hP : jsParseInt (getField row "ProjectID".data "projectId".data "ProjectId".data) = some p)
    (hS : parseFlexibleDate jsP
        (getField row "DateFrom".data "dateFrom".data "StartDate".data) = some df)
    (hT : parseFlexibleDate jsP
        (getField row "DateTo".data "dateTo".data "EndDate".data) = none) :
    parseRow jsP idx row = .ok { empId := e, projectId := p, dateFrom := df, dateTo := none } := by
  unfold parseRow
  dsimp only
  rw [hE, hP, hS, hT]

/-- C8 witness: the concrete row `143, 12, 01/05/2013, garbage` is accepted
with an ongoing end date. -/
theorem c8_witness :
    parseRow (fun _ => none) 0 c8Row
      = .ok { empId := 143, projectId := 12, dateFrom := dMs 2013 5 1, dateTo := none } :=
  c8_unparsable_end_date_tolerated (fun _ => none) 0 c8Row 143 12 (dMs 2013 5 1)
    (by decide) (by decide) (by decide) (by decide)

/-- C6: pair canonicalization is order-insensitive: swapping the employee
order produces the identical canonical key, and analyzing a two-record input
in either record order (under a fixed as-of moment) produces the same ranked
pair list, hence the same aggregate. -/
theorem c6_pair_canonicalization_order_insensitive :
    (∀ a b : Int, pairKey a b = pairKey b a)
    ∧ ∀ (t : Int) (r1 r2 : EmployeeProject),
        (analyzeEmployees (fun _ => t) [r1, r2]).allPairs
          = (analyzeEmployees (fun _ => t) [r2, r1]).allPairs := by
  refine ⟨pairKey_comm, fun t r1 r2 => ?_⟩
  rw [analyze_const_clock_asOf, analyze_const_clock_asOf]
  unfold analyzeEmployeesAsOf
  dsimp only
  by_cases h : r1.projectId = r2.projectId
  · simp only [groupByProject, List.foldl, insertGroup, h, if_pos rfl, List.foldl_cons,
      List.foldl_nil, processGroupAsOf, processWithAsOf]
    rw [processPairAsOf_swap]
  · have h2 : r2.projectId ≠ r1.projectId := fun e => h e.symm
    simp only [groupByProject, List.foldl, insertGroup, if_neg h, if_neg h2, List.foldl_cons,
      List.foldl_nil, processGroupAsOf, processWithAsOf]

theorem isDigit_bounds {c : Char} (h : isDigitCh c = true) :
    48 ≤ c.toNat ∧ c.toNat ≤ 57 := by
  simpa [isDigitCh] using h

theorem digit_not_ws {c : Char} (h : isDigitCh c = true) : isWSCh c = false := by
  have hb := isDigit_bounds h
  simp only [isWSCh, decide_eq_false_iff_not]
  omega

theorem length_cons_elim (l : Str) (n : Nat) (hl : l.length = n + 1) :
    ∃ c l2, l = c :: l2 ∧ l2.length = n := by
  cases l with
  | nil => simp at hl
  | cons a l2 => exact ⟨a, l2, rfl, by simpa using hl⟩

/-- C10: every 8-digit token on which the general step-2 parse fails is
resolved by the `YYYYMMDD` branch to some calendar date, never a parse
failure: out-of-range month and day fields roll over into adjacent months and
years instead of being rejected. -/
theorem c10_eight_digit_token_always_parses (jsP : Str → Option Int) (s : Str)
    (hlen : s.length = 8) (hdig : ∀ c ∈ s, isDigitCh c = true) (hfail : jsP s = none) :
    ∃ t, parseFlexibleDate jsP (some s) = some t := by
  obtain ⟨c0, s, rfl, hl1⟩ := length_cons_elim s 7 hlen
  obtain ⟨c1, s, rfl, hl2⟩ := length_cons_elim s 6 hl1
  obtain ⟨c2, s, rfl, hl3⟩ := length_cons_elim s 5 hl2
  obtain ⟨c3, s, rfl, hl4⟩ := length_cons_elim s 4 hl3
  obtain ⟨c4, s, rfl, hl5⟩ := length_cons_elim s 3 hl4
  obtain ⟨c5, s, rfl, hl6⟩ := length_cons_elim s 2 hl5
  obtain ⟨c6, s, rfl, hl7⟩ := length_cons_elim s 1 hl6
  obtain ⟨c7, s, rfl, hl8⟩ := length_cons_elim s 0 hl7
  obtain rfl : s = [] := List.length_eq_zero.mp hl8
  have h0 : isDigitCh c0 = true := hdig c0 (by simp)
  have h1 : isDigitCh c1 = true := hdig c1 (by simp)
  have h2 : isDigitCh c2 = true := hdig c2 (by simp)
  have h3 : isDigitCh c3 = true := hdig c3 (by simp)
  have h4 : isDigitCh c4 = true := hdig c4 (by simp)
  have h5 : isDigitCh c5 = true := hdig c5 (by simp)
  have h6 : isDigitCh c6 = true := hdig c6 (by simp)
  have h7 : isDigitCh c7 = true := hdig c7 (by simp)
  have hb0 := isDigit_bounds h0
  have hb1 := isDigit_bounds h1
  have hb2 := isDigit_bounds h2
  have hb3 := isDigit_bounds h3
  have hb4 := isDigit_bounds h4
  have hb5 := isDigit_bounds h5
  have hb6 := isDigit_bounds h6
  have hb7 := isDigit_bounds h7
  have htrim : trimChars [c0, c1, c2, c3, c4, c5, c6, c7]
      = [c0, c1, c2, c3, c4, c5, c6, c7] := by
    simp [trimChars, List.dropWhile, digit_not_ws h0, digit_not_ws h7]
  have hstep1 : ¬([c0, c1, c2, c3, c4, c5, c6, c7] = []
      ∨ lowerChars [c0, c1, c2, c3, c4, c5, c6, c7] = "null".data
      ∨ trimChars [c0, c1, c2, c3, c4, c5, c6, c7] = []) := by
    simp [lowerChars, htrim]
  have hd8 : digits8 [c0, c1, c2, c3, c4, c5, c6, c7] = true := by
    simp [digits8, h0, h1, h2, h3, h4, h5, h6, h7]
  obtain ⟨t, ht⟩ := jsNewDate_total (digitsVal [c0, c1, c2, c3])
      (digitsVal [c4, c5] - 1) (digitsVal [c6, c7])
      (by simp [digitsVal]; omega) (by simp [digitsVal]; omega)
      (by simp [digitsVal]; omega) (by simp [digitsVal]; omega)
      (by simp [digitsVal]; omega) (by simp [digitsVal]; omega)
  refine ⟨t, ?_⟩
  simp only [parseFlexibleDate]
  rw [if_neg hstep1, hfail]
  dsimp only
  rw [htrim]
  simp only [hd8, if_true]
  simp only [List.take, List.drop]
  rw [ht]

/-- C10 witness: the 8-digit token `20131301` (month field 13) is resolved to
a date — rolling over to 2014-01-01 — under the everywhere-failing step-2
oracle. -/
theorem c10_witness :
    (∃ t, parseFlexibleDate (fun _ => none) (some "20131301".data) = some t)
      ∧ parseFlexibleDate (fun _ => none) (some "20131301".data) = some (dMs 2014 1 1) :=
  ⟨c10_eight_digit_token_always_parses (fun _ => none) ("20131301".data) (by decide)
      (by decide) rfl,
   by decide⟩

/-- C4 (counterexample): with clock reads that differ within one invocation,
the engine produces an `AnalysisResult` (1 day of overlap recorded over a
three-day detail interval) that no single-as-of version reproduces at any
as-of value, refuting the claim that the current moment is read once and
reused. -/
theorem c4_counterexample :
    ¬ ∃ asOf : Int, analyzeEmployees c4Clock c4Records = analyzeEmployeesAsOf asOf c4Records := by
  rintro ⟨a, h⟩
  have key : (analyzeEmployeesAsOf a c4Records).allPairs
      = if 0 ≤ a then
          [{ emp1 := 1, emp2 := 2, totalDays := jsCeilDiv a 86400000 + 1,
             commonProjects := [{ projectId := 1, overlapDays := jsCeilDiv a 86400000 + 1,
                                  dateFrom := 0, dateTo := a }] }]
        else [] := by
    by_cases h0 : (0:Int) ≤ a
    · have hge := jsCeilDiv_nonneg a h0
      simp [analyzeEmployeesAsOf, c4Records, groupByProject, insertGroup, List.foldl_cons,
        List.foldl_nil, processGroupAsOf, processWithAsOf, processPairAsOf,
        calculateOverlapAsOf, pmLookup, pmUpdate, pairKey, sortPairs, insertRanked, h0,
        show (0:Int) < jsCeilDiv a 86400000 + 1 by omega]
    · simp [analyzeEmployeesAsOf, c4Records, groupByProject, insertGroup, List.foldl_cons,
        List.foldl_nil, processGroupAsOf, processWithAsOf, processPairAsOf,
        calculateOverlapAsOf, pmLookup, pmUpdate, pairKey, sortPairs, insertRanked, h0]
  have h2 := congrArg AnalysisResult.allPairs h
  have h3 : (analyzeEmployees c4Clock c4Records).allPairs
      = [{ emp1 := 1, emp2 := 2, totalDays := 1,
           commonProjects := [{ projectId := 1, overlapDays := 1,
                                dateFrom := 0, dateTo := 172800000 }] }] := by decide
  rw [h3, key] at h2
  by_cases h0 : (0:Int) ≤ a
  · rw [if_pos h0] at h2
    simp [EmployeePair.mk.injEq, CommonProject.mk.injEq, jsCeilDiv] at h2
    omega
  · rw [if_neg h0] at h2
    simp at h2

/-- C4 (amended): the engine as written reads the clock multiple times per
invocation (for each null end date: once per overlap comparison and once more
per recorded detail entry), so it coincides with a single-as-of version
exactly when all those reads return the same captured value: for every input
and every moment `t`, running the engine with all clock reads returning `t`
yields the single-as-of `AnalysisResult` at `t`. -/
theorem c4_consistent_reads_refine_single_asOf (t : Int) (data : List EmployeeProject) :
    analyzeEmployees (fun _ => t) data = analyzeEmployeesAsOf t data :=
  analyze_const_clock_asOf t data
